import Mathlib

/-!
Verification of the i-Tree Eco preprocessing scripts.

The repository holds two ArcPy scripts:
  - crown_light_exposure.py computes, for every tree crown polygon, the
    crown light exposure (CLE): the share of the convex-hull perimeter of
    the crown that is not covered by shadow hulls of taller neighbours.
  - distance_direction.py computes distance and azimuth from tree points
    to the nearest buildings; its numeric kernel is toAzimuth.

The geometric and raster operations are calls into the external ArcGIS
toolbox.  The embedding below therefore models the per-tree control flow
of the loop body over the outcomes of those external calls: the count of
surrounding structures, the sampled tree height, the cell values of the
clipped neighbour raster, the number of polygons produced by the
polygonize step, the lengths of the pieces of the clipped hull line and
the crown hull perimeter.  Rational numbers stand in for the float
values of the script.
-/

namespace CrownLight

/-- Maximum cell value of the clipped neighbour raster, as returned by the
GetRasterProperties MAXIMUM call (crown_light_exposure.py lines 218-222).
The empty raster does not occur on the paths we reason about; the value 0
is an arbitrary default. -/
def maxCells : List ℚ → ℚ
  | [] => 0
  | v :: vs => vs.foldl max v

/-- Modelled from the spec: the external Reclassify step
(crown_light_exposure.py lines 231-237) is an ArcGIS toolbox call whose
semantics is not part of the repository; the spec describes it as keeping
exactly the cells whose value is strictly greater than the tree height
and mapping every other cell to no-data. -/
def reclassify (treeH : ℚ) (cells : List ℚ) : List ℚ :=
  cells.filter (fun v => decide (treeH < v))

/-- Per-tree adapter outcomes feeding the loop body of
crown_light_exposure.py (lines 126-380): the number of surrounding
structures within the crown-diameter buffer, the DSM value at the trunk
point, the DSM cell values over the clipped neighbour footprint, the
lengths of the features of the clip of the hull line with the shadow
hulls, and the crown hull perimeter (the CROWN_PERIM attribute). -/
structure TreeCtx where
  nSurr : Nat
  treeH : ℚ
  cells : List ℚ
  clipParts : List ℚ
  crownPerim : ℚ

/-- Dissolve step (crown_light_exposure.py lines 343-348): with an empty
dissolve field, a non-empty input collapses to a single feature whose
length is the total length and whose FIRST_CROWN_PERIM statistic is the
shared perimeter attribute; an empty input yields no features. -/
def dissolve (clipParts : List ℚ) (crownPerim : ℚ) : List (ℚ × ℚ) :=
  if clipParts = [] then [] else [(clipParts.sum, crownPerim)]

/-- Cursor loop of crown_light_exposure.py lines 360-363: cle_perc starts
at the sentinel -999 and every row of the dissolved feature class
overwrites it with 1 - length / perimeter. -/
def clePerc (rows : List (ℚ × ℚ)) : ℚ :=
  rows.foldl (fun _ r => 1 - r.1 / r.2) (-999)

/-- Loop body of crown_light_exposure.py for one tree, parameterised over
the polygonize capability pg, which returns the number of obstruction
polygons produced from the reclassified raster (RasterToPolygon, lines
242-249).  Branch structure of the source: no surrounding structures, or
maximum neighbour height below the tree height, or zero obstruction
polygons all record 1.0; otherwise the hull line is clipped with the
shadow hulls and the CLE is read off the dissolved clip result. -/
def computeCLE (pg : List ℚ → Nat) (t : TreeCtx) : ℚ :=
  if 0 < t.nSurr then
    if t.treeH ≤ maxCells t.cells then
      if pg (reclassify t.treeH t.cells) = 0 then 1
      else clePerc (dissolve t.clipParts t.crownPerim)
    else 1
  else 1

/-- One record of the trunk-point cursor: the tree identifier and the
adapter outcomes of its pipeline run. -/
structure TreeRow where
  id : Int
  ctx : TreeCtx

/-- Result dictionary cle_values built by the loop
(crown_light_exposure.py lines 123, 255, 372): successive assignment,
a later row with the same identifier overwrites an earlier one. -/
def cleValues (pg : List ℚ → Nat) (rows : List TreeRow) : Int → Option ℚ :=
  rows.foldl
    (fun m r => fun k => if k = r.id then some (computeCLE pg r.ctx) else m k)
    (fun _ => none)

/-- Write-back pass (crown_light_exposure.py lines 388-393): every crown
record receives the dictionary entry of its identifier. -/
def writeBack (pg : List ℚ → Nat) (rows : List TreeRow) (crownIds : List Int) :
    List (Int × Option ℚ) :=
  crownIds.map (fun cid => (cid, cleValues pg rows cid))

/-- Batch run over fallible per-tree adapter outcomes.  The loop body has
no exception handler, so a failing adapter call for one tree aborts the
whole run; otherwise each tree contributes its computed value in order. -/
def runBatch (pg : List ℚ → Nat) :
    List (Except String TreeRow) → Except String (List (Int × ℚ))
  | [] => Except.ok []
  | e :: rest =>
    match e with
    | Except.error msg => Except.error msg
    | Except.ok r =>
      match runBatch pg rest with
      | Except.error msg => Except.error msg
      | Except.ok tail => Except.ok ((r.id, computeCLE pg r.ctx) :: tail)

/-- Failure-free batch run: the list of identifier-value pairs produced
by the loop. -/
def runTrees (pg : List ℚ → Nat) (rows : List TreeRow) : List (Int × ℚ) :=
  rows.map (fun r => (r.id, computeCLE pg r.ctx))

/-- Azimuth conversion of distance_direction.py (lines 120-125). -/
def toAzimuth (angle : ℚ) : ℚ :=
  let azimuth := -1 * angle + 90
  if azimuth < 0 then 360 + azimuth else azimuth

/- ============ helper lemmas ============ -/

theorem le_foldl_max (l : List ℚ) : ∀ b : ℚ, b ≤ l.foldl max b := by
  induction l with
  | nil => intro b; exact le_refl b
  | cons x xs ih =>
    intro b
    rw [List.foldl_cons]
    exact le_trans (le_max_left b x) (ih (max b x))

theorem mem_le_foldl_max (l : List ℚ) : ∀ (b v : ℚ), v ∈ l → v ≤ l.foldl max b := by
  induction l with
  | nil => intro b v h; exact absurd h (List.not_mem_nil v)
  | cons x xs ih =>
    intro b v h
    rw [List.foldl_cons]
    rcases List.mem_cons.mp h with h1 | h2
    · subst h1
      exact le_trans (le_max_right b v) (le_foldl_max xs (max b v))
    · exact ih (max b x) v h2

theorem le_maxCells (cells : List ℚ) (v : ℚ) (h : v ∈ cells) : v ≤ maxCells cells := by
  cases cells with
  | nil => exact absurd h (List.not_mem_nil v)
  | cons x xs =>
    rcases List.mem_cons.mp h with h1 | h2
    · subst h1
      exact le_foldl_max xs v
    · exact mem_le_foldl_max xs x v h2

theorem computeCLE_clip_eq (pg : List ℚ → Nat) (t : TreeCtx)
    (h1 : 0 < t.nSurr) (h2 : t.treeH ≤ maxCells t.cells)
    (h3 : pg (reclassify t.treeH t.cells) ≠ 0) (h4 : t.clipParts ≠ []) :
    computeCLE pg t = 1 - t.clipParts.sum / t.crownPerim := by
  unfold computeCLE
  rw [if_pos h1, if_pos h2, if_neg h3]
  unfold dissolve
  rw [if_neg h4]
  unfold clePerc
  rw [List.foldl_cons, List.foldl_nil]

theorem computeCLE_empty_clip (pg : List ℚ → Nat) (t : TreeCtx)
    (h1 : 0 < t.nSurr) (h2 : t.treeH ≤ maxCells t.cells)
    (h3 : pg (reclassify t.treeH t.cells) ≠ 0) (h4 : t.clipParts = []) :
    computeCLE pg t = -999 := by
  unfold computeCLE
  rw [if_pos h1, if_pos h2, if_neg h3]
  unfold dissolve
  rw [if_pos h4]
  rfl

theorem computeCLE_cases (pg : List ℚ → Nat) (t : TreeCtx) :
    computeCLE pg t = 1 ∨ computeCLE pg t = -999 ∨
      computeCLE pg t = 1 - t.clipParts.sum / t.crownPerim := by
  by_cases h1 : 0 < t.nSurr
  · by_cases h2 : t.treeH ≤ maxCells t.cells
    · by_cases h3 : pg (reclassify t.treeH t.cells) = 0
      · left
        unfold computeCLE
        rw [if_pos h1, if_pos h2, if_pos h3]
      · by_cases h4 : t.clipParts = []
        · exact Or.inr (Or.inl (computeCLE_empty_clip pg t h1 h2 h3 h4))
        · exact Or.inr (Or.inr (computeCLE_clip_eq pg t h1 h2 h3 h4))
    · left
      unfold computeCLE
      rw [if_pos h1, if_neg h2]
  · left
    unfold computeCLE
    rw [if_neg h1]

/- ============ claim C1 ============ -/

/-- Claim C1: for every tree whose crown-hull perimeter line is
non-emptily clipped by the union of its shadow hulls (the tree reaches
the shadow-clip stage and the clip result is non-empty), the dissolve
step collapses the clip result to one feature carrying the total clipped
length together with the crown perimeter, and the recorded CLE equals
1 - (length of the dissolved clipped line) / (total hull perimeter). -/
theorem c1_cle_ratio (pg : List ℚ → Nat) (t : TreeCtx)
    (h1 : 0 < t.nSurr) (h2 : t.treeH ≤ maxCells t.cells)
    (h3 : pg (reclassify t.treeH t.cells) ≠ 0) (h4 : t.clipParts ≠ []) :
    dissolve t.clipParts t.crownPerim = [(t.clipParts.sum, t.crownPerim)] ∧
      computeCLE pg t = 1 - t.clipParts.sum / t.crownPerim := by
  constructor
  · unfold dissolve
    rw [if_neg h4]
  · exact computeCLE_clip_eq pg t h1 h2 h3 h4

/-- Witness for C1 at a concrete tree. -/
theorem c1_cle_ratio_witness :
    dissolve (⟨1, 2, [5], [3, 4], 20⟩ : TreeCtx).clipParts
        (⟨1, 2, [5], [3, 4], 20⟩ : TreeCtx).crownPerim =
      [(List.sum [(3 : ℚ), 4], 20)] ∧
      computeCLE (fun l => l.length) ⟨1, 2, [5], [3, 4], 20⟩ =
        1 - List.sum [(3 : ℚ), 4] / 20 :=
  c1_cle_ratio (fun l => l.length) ⟨1, 2, [5], [3, 4], 20⟩
    (by decide) (by decide) (by decide) (by decide)

/- ============ claim C2 ============ -/

/-- Counterexample to claim C2: a tree on the full shadow-clip path
(surrounding structures exist, the maximum neighbour height reaches the
tree height, one obstruction polygon) whose clip result is empty records
the sentinel -999, which is not in the interval [0, 1]. -/
theorem c2_cle_range_counterexample :
    0 < (⟨1, 5, [7], [], 10⟩ : TreeCtx).nSurr ∧
      (⟨1, 5, [7], [], 10⟩ : TreeCtx).treeH ≤
        maxCells (⟨1, 5, [7], [], 10⟩ : TreeCtx).cells ∧
      (fun l : List ℚ => l.length)
        (reclassify (⟨1, 5, [7], [], 10⟩ : TreeCtx).treeH
          (⟨1, 5, [7], [], 10⟩ : TreeCtx).cells) ≠ 0 ∧
      computeCLE (fun l => l.length) ⟨1, 5, [7], [], 10⟩ = -999 ∧
      ¬(0 ≤ computeCLE (fun l => l.length) ⟨1, 5, [7], [], 10⟩ ∧
        computeCLE (fun l => l.length) ⟨1, 5, [7], [], 10⟩ ≤ 1) := by
  refine ⟨by decide, by decide, by decide, by decide, ?_⟩
  intro h
  have hv : computeCLE (fun l : List ℚ => l.length) ⟨1, 5, [7], [], 10⟩ = -999 := by decide
  rw [hv] at h
  exact absurd h.1 (by norm_num)

/-- Claim C2 as amended: on the full shadow-clip path the CLE lies in
[0, 1] provided the clip result is non-empty; the geometric facts that
the clipped length is non-negative and at most the crown perimeter, and
that the perimeter is positive, are assumptions on the external geometry
engine. -/
theorem c2_cle_range_amended (pg : List ℚ → Nat) (t : TreeCtx)
    (h1 : 0 < t.nSurr) (h2 : t.treeH ≤ maxCells t.cells)
    (h3 : pg (reclassify t.treeH t.cells) ≠ 0) (h4 : t.clipParts ≠ [])
    (hp : 0 < t.crownPerim) (hs : 0 ≤ t.clipParts.sum)
    (hle : t.clipParts.sum ≤ t.crownPerim) :
    0 ≤ computeCLE pg t ∧ computeCLE pg t ≤ 1 := by
  rw [computeCLE_clip_eq pg t h1 h2 h3 h4]
  have hd1 : t.clipParts.sum / t.crownPerim ≤ 1 := (div_le_one hp).mpr hle
  have hd0 : 0 ≤ t.clipParts.sum / t.crownPerim := div_nonneg hs (le_of_lt hp)
  constructor
  · linarith
  · linarith

/-- Witness for the amended C2 at a concrete tree. -/
theorem c2_cle_range_witness :
    0 ≤ computeCLE (fun l => l.length) ⟨1, 2, [5], [3, 4], 20⟩ ∧
      computeCLE (fun l => l.length) ⟨1, 2, [5], [3, 4], 20⟩ ≤ 1 :=
  c2_cle_range_amended (fun l => l.length) ⟨1, 2, [5], [3, 4], 20⟩
    (by decide) (by decide) (by decide) (by decide)
    (by norm_num) (by norm_num) (by norm_num)

/- ============ claim C3 ============ -/

/-- Counterexample to claim C3: a tree that reaches the shadow-clip stage
and whose clipped hull line is empty records -999, not 1.0.  The clip
output feature class exists even when it holds no features, so the code
takes the dissolve branch, where the cursor loop never runs and cle_perc
keeps its initial sentinel value. -/
theorem c3_empty_clip_counterexample :
    0 < (⟨2, 4, [9], [], 8⟩ : TreeCtx).nSurr ∧
      (⟨2, 4, [9], [], 8⟩ : TreeCtx).treeH ≤
        maxCells (⟨2, 4, [9], [], 8⟩ : TreeCtx).cells ∧
      (fun l : List ℚ => l.length)
        (reclassify (⟨2, 4, [9], [], 8⟩ : TreeCtx).treeH
          (⟨2, 4, [9], [], 8⟩ : TreeCtx).cells) ≠ 0 ∧
      (⟨2, 4, [9], [], 8⟩ : TreeCtx).clipParts = [] ∧
      computeCLE (fun l => l.length) ⟨2, 4, [9], [], 8⟩ = -999 ∧
      computeCLE (fun l => l.length) ⟨2, 4, [9], [], 8⟩ ≠ 1 := by
  refine ⟨by decide, by decide, by decide, by decide, by decide, ?_⟩
  have hv : computeCLE (fun l : List ℚ => l.length) ⟨2, 4, [9], [], 8⟩ = -999 := by decide
  rw [hv]
  norm_num

/-- Claim C3 as amended: for every tree that reaches the shadow-clip
stage and whose clipped hull line is empty, the recorded CLE is the
sentinel -999. -/
theorem c3_empty_clip_amended (pg : List ℚ → Nat) (t : TreeCtx)
    (h1 : 0 < t.nSurr) (h2 : t.treeH ≤ maxCells t.cells)
    (h3 : pg (reclassify t.treeH t.cells) ≠ 0) (h4 : t.clipParts = []) :
    computeCLE pg t = -999 :=
  computeCLE_empty_clip pg t h1 h2 h3 h4

/-- Witness for the amended C3 at a concrete tree. -/
theorem c3_empty_clip_witness :
    computeCLE (fun l => l.length) ⟨1, 5, [6], [], 12⟩ = -999 :=
  c3_empty_clip_amended (fun l => l.length) ⟨1, 5, [6], [], 12⟩
    (by decide) (by decide) (by decide) (by decide)

/- ============ claim C4 ============ -/

/-- Claim C4: a tree with no surrounding structure within the buffer
skips every downstream stage (the result does not depend on any of the
remaining adapter outcomes) and records exactly 1.0. -/
theorem c4_no_neighbours (pg : List ℚ → Nat) (t : TreeCtx)
    (h : t.nSurr = 0) : computeCLE pg t = 1 := by
  unfold computeCLE
  rw [if_neg]
  rw [h]
  exact lt_irrefl 0

/-- Witness for C4 at a concrete tree. -/
theorem c4_no_neighbours_witness :
    computeCLE (fun l => l.length) ⟨0, 9, [1, 2], [5], 7⟩ = 1 :=
  c4_no_neighbours (fun l => l.length) ⟨0, 9, [1, 2], [5], 7⟩ rfl

/- ============ claim C5 ============ -/

/-- Claim C5: a tree with at least one surrounding structure whose
maximum neighbour height is strictly below the tree height terminates
early and records exactly 1.0. -/
theorem c5_lower_neighbours (pg : List ℚ → Nat) (t : TreeCtx)
    (h1 : 0 < t.nSurr) (h2 : maxCells t.cells < t.treeH) :
    computeCLE pg t = 1 := by
  unfold computeCLE
  rw [if_pos h1, if_neg (not_le_of_lt h2)]

/-- Witness for C5 at a concrete tree. -/
theorem c5_lower_neighbours_witness :
    computeCLE (fun l => l.length) ⟨2, 9, [1, 2], [5], 7⟩ = 1 :=
  c5_lower_neighbours (fun l => l.length) ⟨2, 9, [1, 2], [5], 7⟩
    (by decide) (by decide)

/- ============ claim C6 ============ -/

/-- Claim C6: the coarse height check passes whenever the maximum
neighbour height is at least the tree height, while the reclassification
keeps only cells strictly higher than the tree; for a tree whose
neighbours reach exactly the tree height the coarse check therefore
passes, the reclassified raster is empty, the polygonize step (which
yields no polygons from an empty mask) reports zero obstructions, and
the recorded CLE is 1.0. -/
theorem c6_boundary_height (pg : List ℚ → Nat) (t : TreeCtx)
    (h1 : 0 < t.nSurr) (hmax : maxCells t.cells = t.treeH)
    (hpg : pg [] = 0) :
    t.treeH ≤ maxCells t.cells ∧ reclassify t.treeH t.cells = [] ∧
      computeCLE pg t = 1 := by
  have hcoarse : t.treeH ≤ maxCells t.cells := le_of_eq hmax.symm
  have hr : reclassify t.treeH t.cells = [] := by
    unfold reclassify
    rw [List.filter_eq_nil_iff]
    intro v hv
    have hle : v ≤ t.treeH := hmax ▸ le_maxCells t.cells v hv
    simp only [decide_eq_true_eq]
    exact not_lt_of_le hle
  refine ⟨hcoarse, hr, ?_⟩
  unfold computeCLE
  rw [if_pos h1, if_pos hcoarse, hr, if_pos hpg]

/-- Witness for C6 at a concrete tree. -/
theorem c6_boundary_height_witness :
    (4 : ℚ) ≤ maxCells [4, 3] ∧ reclassify 4 [4, 3] = [] ∧
      computeCLE (fun l => l.length) ⟨1, 4, [4, 3], [5], 7⟩ = 1 :=
  c6_boundary_height (fun l => l.length) ⟨1, 4, [4, 3], [5], 7⟩
    (by decide) (by decide) rfl

/- ============ claim C10 ============ -/

/-- Counterexample to claim C10: toAzimuth is total but its result is
not always in [0, 360); at the raw angle -300 it returns 390, which also
differs from (90 - (-300)) mod 360 = 30. -/
theorem c10_azimuth_counterexample :
    toAzimuth (-300) = 390 ∧ ¬toAzimuth (-300) < 360 ∧ toAzimuth (-300) ≠ 30 := by
  refine ⟨by norm_num [toAzimuth], ?_, by norm_num [toAzimuth]⟩
  norm_num [toAzimuth]

/-- Claim C10 as amended: for every raw planar angle in the interval
(-180, 180] produced by the near-table computation, toAzimuth returns a
compass azimuth in [0, 360) congruent to 90 - angle modulo 360; in
particular toAzimuth 90 = 0, toAzimuth 0 = 90, toAzimuth 180 = 270 and
toAzimuth (-45) = 135. -/
theorem c10_azimuth_amended (a : ℚ) (h1 : -180 < a) (h2 : a ≤ 180) :
    (0 ≤ toAzimuth a ∧ toAzimuth a < 360 ∧
      ∃ k : ℤ, 90 - a - toAzimuth a = 360 * k) ∧
    toAzimuth 90 = 0 ∧ toAzimuth 0 = 90 ∧
      toAzimuth 180 = 270 ∧ toAzimuth (-45) = 135 := by
  refine ⟨?_, by norm_num [toAzimuth], by norm_num [toAzimuth],
    by norm_num [toAzimuth], by norm_num [toAzimuth]⟩
  unfold toAzimuth
  by_cases h : -1 * a + 90 < 0
  · rw [if_pos h]
    refine ⟨by linarith, by linarith, ⟨-1, by ring⟩⟩
  · rw [if_neg h]
    refine ⟨by linarith, by linarith, ⟨0, by ring⟩⟩

/-- Witness for the amended C10 at the concrete angle 45. -/
theorem c10_azimuth_witness :
    ((0 : ℚ) ≤ toAzimuth 45 ∧ toAzimuth 45 < 360 ∧
      ∃ k : ℤ, 90 - 45 - toAzimuth 45 = 360 * k) ∧
    toAzimuth 90 = 0 ∧ toAzimuth 0 = 90 ∧
      toAzimuth 180 = 270 ∧ toAzimuth (-45) = 135 :=
  c10_azimuth_amended 45 (by norm_num) (by norm_num)

/- ============ shadow hull assembly (claim C7) ============ -/

/-- Planar point. -/
abbrev Point := ℚ × ℚ

/-- Vertex points of the obstruction polygons, tagged with the OBST_ID of
their polygon (crown_light_exposure.py lines 277-290): polygon number m
contributes its vertices tagged m, continuing with m + 1 for the rest.
The full vertex dump starts at tag 1, matching the OBJECTID sequence of
a fresh RasterToPolygon output. -/
def tagVerts : Nat → List (List Point) → List (Nat × Point)
  | _, [] => []
  | m, poly :: rest => poly.map (fun p => (m, p)) ++ tagVerts (m + 1) rest

/-- Trunk point insertions (crown_light_exposure.py lines 294-301): the
trunk point is inserted once per obstruction index j = 1..n. -/
def trunkTags (trunk : Point) : Nat → List (Nat × Point)
  | 0 => []
  | n + 1 => trunkTags trunk n ++ [(n + 1, trunk)]

/-- Point set fed to the grouped convex hull call: all tagged obstruction
vertices followed by the inserted trunk points. -/
def shadowPoints (trunk : Point) (obs : List (List Point)) : List (Nat × Point) :=
  tagVerts 1 obs ++ trunkTags trunk obs.length

/-- Points carrying a given OBST_ID tag, as grouped by the
MinimumBoundingGeometry LIST option (crown_light_exposure.py lines
305-313). -/
def groupPoints (pts : List (Nat × Point)) (j : Nat) : List Point :=
  (pts.filter (fun q => decide (q.1 = j))).map Prod.snd

/-- Grouped convex hull call: one hull per OBST_ID value 1..n, each the
hull (computed by the external engine ch) of the points of that group. -/
def shadowHulls (ch : List Point → List Point) (trunk : Point)
    (obs : List (List Point)) : List (List Point) :=
  (List.range obs.length).map
    (fun k => ch (groupPoints (shadowPoints trunk obs) (k + 1)))

theorem tagVerts_tag_ge (obs : List (List Point)) :
    ∀ (m : Nat) (q : Nat × Point), q ∈ tagVerts m obs → m ≤ q.1 := by
  induction obs with
  | nil => intro m q h; exact absurd h (List.not_mem_nil q)
  | cons poly rest ih =>
    intro m q h
    unfold tagVerts at h
    rcases List.mem_append.mp h with h1 | h2
    · obtain ⟨p, _, hq⟩ := List.mem_map.mp h1
      rw [← hq]
    · exact le_trans (Nat.le_succ m) (ih (m + 1) q h2)

theorem tagVerts_filter (obs : List (List Point)) :
    ∀ (m k : Nat) (h : k < obs.length),
      (tagVerts m obs).filter (fun q => decide (q.1 = m + k)) =
        (obs.get ⟨k, h⟩).map (fun p => (m + k, p)) := by
  induction obs with
  | nil => intro m k h; exact absurd h (Nat.not_lt_zero k)
  | cons poly rest ih =>
    intro m k h
    cases k with
    | zero =>
      unfold tagVerts
      rw [List.filter_append]
      have h1 : (tagVerts (m + 1) rest).filter
          (fun q => decide (q.1 = m + 0)) = [] := by
        rw [List.filter_eq_nil_iff]
        intro q hq
        have hge := tagVerts_tag_ge rest (m + 1) q hq
        simp only [decide_eq_true_eq]
        omega
      rw [h1, List.append_nil, Nat.add_zero]
      show (poly.map (fun p => ((m : Nat), p))).filter
          (fun q => decide (q.1 = m)) = poly.map (fun p => (m, p))
      rw [List.filter_eq_self]
      intro q hq
      obtain ⟨p, _, hq2⟩ := List.mem_map.mp hq
      rw [← hq2]
      simp
    | succ k2 =>
      unfold tagVerts
      rw [List.filter_append]
      have h1 : (poly.map (fun p => ((m : Nat), p))).filter
          (fun q => decide (q.1 = m + (k2 + 1))) = [] := by
        rw [List.filter_eq_nil_iff]
        intro q hq
        obtain ⟨p, _, hq2⟩ := List.mem_map.mp hq
        rw [← hq2]
        simp only [decide_eq_true_eq]
        omega
      rw [h1, List.nil_append]
      have h2 := ih (m + 1) k2 (Nat.lt_of_succ_lt_succ h)
      have harith : m + 1 + k2 = m + (k2 + 1) := by omega
      rw [harith] at h2
      rw [h2]
      rfl

theorem trunkTags_tag_le (trunk : Point) :
    ∀ (n : Nat) (q : Nat × Point), q ∈ trunkTags trunk n → q.1 ≤ n := by
  intro n
  induction n with
  | zero => intro q h; exact absurd h (List.not_mem_nil q)
  | succ n ih =>
    intro q h
    unfold trunkTags at h
    rcases List.mem_append.mp h with h1 | h2
    · exact le_trans (ih q h1) (Nat.le_succ n)
    · rw [List.mem_singleton] at h2
      rw [h2]

theorem trunkTags_filter (trunk : Point) :
    ∀ (n k : Nat), k < n →
      (trunkTags trunk n).filter (fun q => decide (q.1 = k + 1)) =
        [(k + 1, trunk)] := by
  intro n
  induction n with
  | zero => intro k h; exact absurd h (Nat.not_lt_zero k)
  | succ n ih =>
    intro k h
    unfold trunkTags
    rw [List.filter_append]
    by_cases hk : k = n
    · subst hk
      have h1 : (trunkTags trunk k).filter
          (fun q => decide (q.1 = k + 1)) = [] := by
        rw [List.filter_eq_nil_iff]
        intro q hq
        have := trunkTags_tag_le trunk k q hq
        simp only [decide_eq_true_eq]
        omega
      rw [h1, List.nil_append]
      simp
    · have hk2 : k < n := by omega
      rw [ih k hk2]
      have h2 : (([((n : Nat) + 1, trunk)] : List (Nat × Point))).filter
          (fun q => decide (q.1 = k + 1)) = [] := by
        rw [List.filter_eq_nil_iff]
        intro q hq
        rw [List.mem_singleton] at hq
        rw [hq]
        simp only [decide_eq_true_eq]
        omega
      rw [h2, List.append_nil]

theorem shadow_group_eq (trunk : Point) (obs : List (List Point))
    (k : Nat) (h : k < obs.length) :
    groupPoints (shadowPoints trunk obs) (k + 1) = obs.get ⟨k, h⟩ ++ [trunk] := by
  unfold groupPoints shadowPoints
  rw [List.filter_append]
  have h1 := tagVerts_filter obs 1 k h
  have harith : 1 + k = k + 1 := Nat.add_comm 1 k
  rw [harith] at h1
  rw [h1, trunkTags_filter trunk obs.length k h]
  rw [List.map_append, List.map_map]
  simp

/-- Claim C7: the grouped hull call produces exactly one shadow hull per
obstruction polygon, and the hull of index k is the external convex hull
of the boundary vertices of obstruction k together with the trunk point
of the analysed tree. -/
theorem c7_shadow_hulls (ch : List Point → List Point) (trunk : Point)
    (obs : List (List Point)) :
    (shadowHulls ch trunk obs).length = obs.length ∧
    ∀ (k : Nat) (hs : k < (shadowHulls ch trunk obs).length) (ho : k < obs.length),
      (shadowHulls ch trunk obs).get ⟨k, hs⟩ = ch (obs.get ⟨k, ho⟩ ++ [trunk]) := by
  constructor
  · unfold shadowHulls
    rw [List.length_map, List.length_range]
  · intro k hs ho
    unfold shadowHulls
    simp only [List.get_eq_getElem, List.getElem_map, List.getElem_range]
    rw [shadow_group_eq trunk obs k ho]
    rfl

/-- Witness for C7 on two concrete obstruction polygons. -/
theorem c7_shadow_hulls_witness :
    (shadowHulls (fun l => l) ((0 : ℚ), (0 : ℚ)) [[(1, 0)], [(2, 3)]]).length = 2 ∧
    (shadowHulls (fun l => l) ((0 : ℚ), (0 : ℚ)) [[(1, 0)], [(2, 3)]]).get
        ⟨1, by decide⟩ = [(2, 3), (0, 0)] := by
  have h := c7_shadow_hulls (fun l => l) ((0 : ℚ), (0 : ℚ)) [[(1, 0)], [(2, 3)]]
  refine ⟨h.1, ?_⟩
  rw [h.2 1 (by decide) (by decide)]
  rfl

/- ============ claim C8 ============ -/

theorem cleValues_snoc (pg : List ℚ → Nat) (rows : List TreeRow)
    (r : TreeRow) (k : Int) :
    cleValues pg (rows ++ [r]) k =
      if k = r.id then some (computeCLE pg r.ctx) else cleValues pg rows k := by
  unfold cleValues
  rw [List.foldl_append]
  rfl

theorem cleValues_mem (pg : List ℚ → Nat) (rows : List TreeRow) (k : Int) :
    (∃ r, r ∈ rows ∧ r.id = k) →
    ∃ r, r ∈ rows ∧ r.id = k ∧
      cleValues pg rows k = some (computeCLE pg r.ctx) := by
  induction rows using List.reverseRecOn with
  | nil =>
    intro h
    obtain ⟨r, hr, _⟩ := h
    exact absurd hr (List.not_mem_nil r)
  | append_singleton xs x ih =>
    intro h
    by_cases hk : k = x.id
    · refine ⟨x, List.mem_append_right xs (List.mem_singleton.mpr rfl), hk.symm, ?_⟩
      rw [cleValues_snoc, if_pos hk]
    · obtain ⟨r, hr, hid⟩ := h
      have hr2 : r ∈ xs := by
        rcases List.mem_append.mp hr with hA | hB
        · exact hA
        · rw [List.mem_singleton] at hB
          subst hB
          exact absurd hid.symm hk
      obtain ⟨r2, hm, hi, hv⟩ := ih ⟨r, hr2, hid⟩
      refine ⟨r2, List.mem_append_left [x] hm, hi, ?_⟩
      rw [cleValues_snoc, if_neg hk]
      exact hv

/-- Counterexample to claim C8: a tree whose clipped hull line is empty
ends the run with the recorded value -999, which is neither a value in
[0, 1] nor the fallback 1.0. -/
theorem c8_value_counterexample :
    cleValues (fun l => l.length) [⟨3, ⟨1, 5, [7], [], 10⟩⟩] 3 = some (-999) ∧
      ¬(0 ≤ (-999 : ℚ) ∧ (-999 : ℚ) ≤ 1) := by
  constructor
  · decide
  · intro h
    exact absurd h.1 (by norm_num)

/-- Claim C8 as amended: every crown whose identifier has a matching
trunk record ends the run with exactly one recorded CLE_PERC value -
the fallback 1.0, the sentinel -999, or a computed ratio - and the
write-back pass assigns precisely that dictionary value; the value is
never left unset. -/
theorem c8_every_crown_set (pg : List ℚ → Nat) (rows : List TreeRow)
    (cid : Int) (h : ∃ r, r ∈ rows ∧ r.id = cid) :
    ∃ v, cleValues pg rows cid = some v ∧
      writeBack pg rows [cid] = [(cid, some v)] ∧
      (v = 1 ∨ v = -999 ∨ ∃ s p, v = 1 - s / p) := by
  obtain ⟨r, hmem, hid, hv⟩ := cleValues_mem pg rows cid h
  refine ⟨computeCLE pg r.ctx, hv, ?_, ?_⟩
  · unfold writeBack
    simp [hv]
  · rcases computeCLE_cases pg r.ctx with h1 | h1 | h1
    · exact Or.inl h1
    · exact Or.inr (Or.inl h1)
    · exact Or.inr (Or.inr ⟨r.ctx.clipParts.sum, r.ctx.crownPerim, h1⟩)

/-- Witness for the amended C8 at a concrete one-tree run. -/
theorem c8_every_crown_set_witness :
    ∃ v, cleValues (fun l => l.length) [⟨5, ⟨0, 3, [], [], 2⟩⟩] 5 = some v ∧
      writeBack (fun l => l.length) [⟨5, ⟨0, 3, [], [], 2⟩⟩] [5] = [(5, some v)] ∧
      (v = 1 ∨ v = -999 ∨ ∃ s p, v = 1 - s / p) :=
  c8_every_crown_set (fun l => l.length) [⟨5, ⟨0, 3, [], [], 2⟩⟩] 5
    ⟨⟨5, ⟨0, 3, [], [], 2⟩⟩, List.mem_singleton.mpr rfl, rfl⟩

/- ============ claim C9 ============ -/

/-- Counterexample to claim C9: the loop body has no per-tree exception
handler, so an adapter failure while processing the first tree aborts
the whole batch; the second tree is never processed and no result list
is produced. -/
theorem c9_abort_counterexample :
    runBatch (fun l => l.length)
        [Except.error "adapter failure", Except.ok ⟨7, ⟨0, 0, [], [], 1⟩⟩] =
      Except.error "adapter failure" ∧
    ∀ res : List (Int × ℚ),
      runBatch (fun l => l.length)
          [Except.error "adapter failure", Except.ok ⟨7, ⟨0, 0, [], [], 1⟩⟩] ≠
        Except.ok res := by
  constructor
  · rfl
  · intro res h
    have h2 : (Except.error "adapter failure" :
        Except String (List (Int × ℚ))) = Except.ok res := h
    exact Except.noConfusion h2

/-- Claim C9 as amended: an anomaly that surfaces as an empty clipped
geometry is recorded as the sentinel -999 and the batch continues (a
failure-free batch completes with exactly one value per tree, sentinel
entries included), but an adapter failure is not caught and terminates
the batch at once. -/
theorem c9_batch_amended (pg : List ℚ → Nat) :
    (∀ rows : List TreeRow,
      runBatch pg (rows.map Except.ok) = Except.ok (runTrees pg rows)) ∧
    (∀ (msg : String) (rest : List (Except String TreeRow)),
      runBatch pg (Except.error msg :: rest) = Except.error msg) := by
  constructor
  · intro rows
    induction rows with
    | nil => rfl
    | cons r rest ih =>
      show runBatch pg (Except.ok r :: rest.map Except.ok) = _
      unfold runBatch
      rw [ih]
      rfl
  · intro msg rest
    rfl

end CrownLight
